import Mathlib

/-!
Shallow embedding of the IAM business-role-builder core
(`brb_core/sod_rules.py`, `brb_core/bundling.py`, `brb_core/metrics.py`,
`brb_core/new_joiner.py`) and proofs about the spec's claims.

Modelling conventions:
* Python floats are modelled as `ℚ`.  All rational arithmetic is written
  with `Rat.divInt` / `mkRat` / `Rat.floor` so that concrete instances
  reduce inside the kernel.
* A pandas `DataFrame` of the IAM extract is a `DataFrame`: the list of
  column names that are actually present plus the rows (each row carries
  the six fields of an access record).  Reading an absent column raises
  `KeyError` in pandas; functions that read columns without a guard are
  therefore embedded in `Except String`.
* Python `sorted` on strings is code-point lexicographic; embedded as
  `strLE` below (Lean's built-in `String.ltb` does not reduce in the
  kernel).  Python's stable `sort` is embedded as `List.insertionSort`.
* Human-readable display strings that interpolate floats are abbreviated
  (rational numbers do not print like Python floats); no claim depends
  on those display strings.
-/

namespace BRB

/-! ### Generic helpers -/

/-- Code-point comparison of char lists, Python's string `<=`. -/
def charListLE : List Char → List Char → Bool
  | [], _ => true
  | _ :: _, [] => false
  | a :: as, b :: bs =>
    if a.toNat < b.toNat then true
    else if b.toNat < a.toNat then false
    else charListLE as bs

/-- Python's string order (code-point lexicographic). -/
def strLE (a b : String) : Prop := charListLE a.data b.data = true

instance decStrLE : DecidableRel strLE := fun a b =>
  inferInstanceAs (Decidable (_ = true))

/-- Python `sorted(...)` on a list of strings. -/
def sortStrings (l : List String) : List String := List.insertionSort strLE l

/-- Python `sorted(set(...))` on strings. -/
def sortDedupStr (l : List String) : List String := sortStrings l.dedup

/-- All index pairs `i < j` of a list, as ordered element pairs — the
`for i in range(n): for j in range(i+1, n)` enumeration. -/
def pairsOf {α : Type} : List α → List (α × α)
  | [] => []
  | x :: xs => xs.map (fun y => (x, y)) ++ pairsOf xs

/-- First-occurrence deduplication with an explicit `seen` accumulator,
the Python `if key not in seen` idiom. -/
def dedupSeen {α : Type} [DecidableEq α] (seen : List α) : List α → List α
  | [] => []
  | x :: xs => if x ∈ seen then dedupSeen seen xs else x :: dedupSeen (x :: seen) xs

/-- Contiguous-substring test on char lists (Python's `needle in hay`). -/
def containsSub (hay needle : List Char) : Bool :=
  (List.range (hay.length + 1)).any (fun i => needle.isPrefixOf (hay.drop i))

/-- Python `str.lower()`: map `Char.toLower` over the characters. -/
def strLower (s : String) : String := String.mk (s.data.map Char.toLower)

/-- Python `str.upper()`: map `Char.toUpper` over the characters. -/
def strUpper (s : String) : String := String.mk (s.data.map Char.toUpper)

/-- Round half to even (Python's `round`) of a rational, to an integer.
`r` is the numerator of the fractional part over `y.den`. -/
def roundHalfEven (y : ℚ) : ℤ :=
  let f := y.floor
  let r := y.num - f * (y.den : ℤ)
  if 2 * r < (y.den : ℤ) then f
  else if (y.den : ℤ) < 2 * r then f + 1
  else if f % 2 = 0 then f else f + 1

/-- Python `round(y, 2)`. -/
def pyRound2 (y : ℚ) : ℚ :=
  Rat.divInt (roundHalfEven (Rat.divInt (y.num * 100) (y.den : ℤ))) 100

/-- Python `round(y, 4)`. -/
def pyRound4 (y : ℚ) : ℚ :=
  Rat.divInt (roundHalfEven (Rat.divInt (y.num * 10000) (y.den : ℤ))) 10000

/-- Ceiling of a rational, kernel-computable (`q.den = 1` means `q` is an
integer; otherwise the ceiling is the floor plus one). -/
def ceilOf (q : ℚ) : ℤ := if q.den = 1 then q.num else q.floor + 1

/-- Python `math.ceil(q * n)` for a rational threshold `q` and a natural count
`n`; `Rat.divInt (q.num * n) q.den` is exactly `q * n`. -/
def ceilMulNat (q : ℚ) (n : ℕ) : ℤ := ceilOf (Rat.divInt (q.num * (n : ℤ)) (q.den : ℤ))

/-! ### `brb_core/sod_rules.py` -/

/-- One explicit SoD rule `{a, b, severity, reason}`.  `SOD_RULES` is a
module-level table in the source; the functions below take it as a
parameter so that configured rule tables can be reasoned about. -/
structure SodRule where
  a : String
  b : String
  severity : String
  reason : String
deriving DecidableEq, Repr

/-- The source ships with an empty explicit rule table. -/
def SOD_RULES : List SodRule := []

/-- The rank map `SEVERITY_RANK.get(sev, 2)`. -/
def severityRank (s : String) : ℕ :=
  if s = "LOW" then 1 else if s = "MEDIUM" then 2 else if s = "HIGH" then 3 else 2

def HIGH_RISK_KEYWORDS : List String :=
  ["admin", "root", "priv", "owner", "delete", "write", "modify", "update", "prod", "sudo", "grant"]

def FINANCE_KEYWORDS : List String :=
  ["fin", "payment", "pay", "invoice", "gl", "sap", "treasury", "settle", "recon"]

def APPROVAL_KEYWORDS : List String :=
  ["approve", "approval", "authorise", "authorize", "signoff", "certify"]

/-- A rule-based conflict record `{a, b, severity, reason}`. -/
structure RuleConflict where
  a : String
  b : String
  severity : String
  reason : String
deriving DecidableEq, Repr

/-- Descending-severity order used by `conflicts.sort(..., reverse=True)`;
Python's sort is stable and so is `insertionSort`. -/
def sevGE (c1 c2 : RuleConflict) : Prop :=
  severityRank c2.severity ≤ severityRank c1.severity

instance decSevGE : DecidableRel sevGE := fun c1 c2 =>
  inferInstanceAs (Decidable (_ ≤ _))

/-- Function `detect_sod_conflicts(candidate_roles)`: explicit rules whose two
roles are both present, sorted descending by severity rank. -/
def detectSodConflicts (rules : List SodRule) (candidateRoles : List String) :
    List RuleConflict :=
  let found := (rules.filter (fun ru =>
      decide (ru.a ∈ candidateRoles ∧ ru.b ∈ candidateRoles))).map
    (fun ru => RuleConflict.mk ru.a ru.b (strUpper ru.severity) ru.reason)
  List.insertionSort sevGE found

/-- One step of the removal loop in `apply_sod_policy`: for a HIGH
conflict whose `b` is still present, drop `b` and record it. -/
def sodStep (st : List String × List String) (c : RuleConflict) :
    List String × List String :=
  if c.severity = "HIGH" then
    if c.b ∈ st.1 then (st.1.erase c.b, c.b :: st.2) else st
  else st

/-- Function `apply_sod_policy(candidate_roles, block_high)`:
returns `(kept sorted, removed sorted, conflicts)`. -/
def applySodPolicy (rules : List SodRule) (candidateRoles : List String)
    (blockHigh : Bool) : List String × List String × List RuleConflict :=
  let roles := sortDedupStr candidateRoles
  let conflicts := detectSodConflicts rules roles
  let st := if blockHigh then conflicts.foldl sodStep (roles, []) else (roles, [])
  (sortStrings st.1, sortDedupStr st.2, conflicts)

/-- The result of `_keyword_flags(role)`. -/
structure Flags where
  high_priv : Bool
  finance : Bool
  approval : Bool
deriving DecidableEq, Repr

def keywordFlags (role : String) : Flags :=
  let r := strLower role
  { high_priv := HIGH_RISK_KEYWORDS.any (fun k => containsSub r.data k.data)
    finance := FINANCE_KEYWORDS.any (fun k => containsSub r.data k.data)
    approval := APPROVAL_KEYWORDS.any (fun k => containsSub r.data k.data) }

/-- A heuristic conflict record `{pair, severity, rationale}`. -/
structure HConflict where
  pair : String × String
  severity : String
  rationale : String
deriving DecidableEq, Repr

def mcRationale : String :=
  "Heuristic: approval combined with finance/privileged access (maker-checker risk)."

def ppRationale : String :=
  "Heuristic: multiple privileged roles combined in same bundle."

/-- The two heuristic checks of `assess_bundle_sod` for one ordered pair
`(a, b)` (the inner loop body): the maker-checker check, then the
two-privileged-roles check. -/
def pairConflicts (a b : String) : List HConflict :=
  let fa := keywordFlags a
  let fb := keywordFlags b
  (if (fa.approval && (fb.finance || fb.high_priv)) ||
      (fb.approval && (fa.finance || fa.high_priv)) then
    [HConflict.mk (a, b) (if fa.finance || fb.finance then "HIGH" else "MEDIUM") mcRationale]
  else []) ++
  (if fa.high_priv && fb.high_priv then
    [HConflict.mk (a, b) "MEDIUM" ppRationale]
  else [])

/-- Result of `assess_bundle_sod`. -/
structure Assessment where
  risk : String
  conflicts : List HConflict
deriving DecidableEq, Repr

/-- Function `assess_bundle_sod(bundle_roles)`: explicit-rule conflicts, then the
heuristic pair checks over `sorted(set(bundle_roles))`, deduplicated;
the overall risk is HIGH/MEDIUM/LOW by maximum observed severity. -/
def assessBundleSod (rules : List SodRule) (bundleRoles : List String) : Assessment :=
  let roles := sortDedupStr bundleRoles
  let ruleConfs := (detectSodConflicts rules roles).map (fun c =>
    HConflict.mk (c.a, c.b) c.severity
      (if c.reason = "" then "Policy rule conflict" else c.reason))
  let heur := (pairsOf roles).flatMap (fun p => pairConflicts p.1 p.2)
  let conflicts := dedupSeen [] (ruleConfs ++ heur)
  let risk :=
    if conflicts.any (fun c => c.severity == "HIGH") then "HIGH"
    else if conflicts.any (fun c => c.severity == "MEDIUM") then "MEDIUM"
    else "LOW"
  Assessment.mk risk conflicts

/-! ### `brb_core/bundling.py` -/

/-- One access record (one row of the IAM extract). -/
structure Record where
  user_id : String
  ar_role_name : String
  assignment_type : String
  job_code : String
  department : String
  supervisor_level6 : String
deriving DecidableEq, Repr

/-- A pandas dataframe of access records: the set of column names that
are actually present plus the rows.  A column name absent from `cols`
raises `KeyError` when read without a guard. -/
structure DataFrame where
  cols : List String
  rows : List Record
deriving DecidableEq, Repr

/-- Reading the value of a (present) column from a row. -/
def getCol (r : Record) (c : String) : String :=
  if c = "user_id" then r.user_id
  else if c = "ar_role_name" then r.ar_role_name
  else if c = "assignment_type" then r.assignment_type
  else if c = "job_code" then r.job_code
  else if c = "department" then r.department
  else if c = "supervisor_level6" then r.supervisor_level6
  else ""

/-- The group key of a row under `group_cols`. -/
def keyOf (gcols : List String) (r : Record) : List String := gcols.map (getCol r)

/-- Rows of the group with key `k` (`df.groupby(list(group_cols))`). -/
def groupRecords (df : DataFrame) (gcols : List String) (k : List String) :
    List Record :=
  df.rows.filter (fun r => decide (keyOf gcols r = k))

/-- The distinct users of a slice, the keys of `build_user_role_map`. -/
def distinctUsers (g : List Record) : List String := (g.map (·.user_id)).dedup

/-- The distinct roles held by user `u` in a slice (its role set). -/
def rolesOfUser (g : List Record) (u : String) : List String :=
  ((g.filter (fun r => decide (r.user_id = u))).map (·.ar_role_name)).dedup

/-- Via `_count_singles`: the number of distinct users of the slice holding
role `role` (users whose role set contains it). -/
def countUsersWithRole (g : List Record) (role : String) : ℕ :=
  ((g.filter (fun r => decide (r.ar_role_name = role))).map (·.user_id)).dedup.length

/-- Via `_count_itemsets_k`: the per-candidate count: users whose role set is a
superset of the itemset. -/
def coveredCount (g : List Record) (itemset : List String) : ℕ :=
  ((distinctUsers g).filter (fun u =>
    itemset.all (fun role => decide (role ∈ rolesOfUser g u)))).length

/-- Dynamic effective itemset support for small cohorts
(`bundling.py`, the `n_users <= 12 / <= 25` adjustment). -/
def effectiveItemsetSupport (minItemsetSupport : ℚ) (nUsers : ℕ) : ℚ :=
  let e := minItemsetSupport
  if nUsers ≤ 12 then min e (mkRat 3 5)
  else if nUsers ≤ 25 then min e (mkRat 13 20)
  else e

/-- Function `confidence_tier(coverage_pct)`. -/
def confidenceTier (coveragePct : ℚ) : String :=
  if (80 : ℚ) ≤ coveragePct then "STRONG"
  else if (60 : ℚ) ≤ coveragePct then "MEDIUM"
  else "WEAK"

/-- One suggestion row of `suggest_itemsets` (the `explain` display
string is omitted: it only interpolates the numbers already present in
the other fields). -/
structure BundleRow where
  groupKey : List String
  bundle_roles : List String
  bundle_size : ℕ
  users_in_group : ℕ
  users_covered : ℕ
  coverage_pct : ℚ
  confidence_tier : String
  requested_min_itemset_support : ℚ
  effective_itemset_support : ℚ
  min_itemset_count : ℤ
  sod_risk : String
  sod_conflict_count : ℕ
  sod_conflicts : List HConflict
deriving DecidableEq, Repr

/-- Building one suggestion record (`suggestions.append({...})`);
`coverage_pct = round(100 * covered / n, 2)`, written with `Rat.divInt`
so it is `round(support * 100, 2)` exactly. -/
def mkBundleRow (rules : List SodRule) (key : List String) (itemset : List String)
    (k n covered : ℕ) (ms eff : ℚ) (minc : ℤ) : BundleRow :=
  let coverage := pyRound2 (Rat.divInt ((covered : ℤ) * 100) (n : ℤ))
  let sod := assessBundleSod rules itemset
  { groupKey := key
    bundle_roles := itemset
    bundle_size := k
    users_in_group := n
    users_covered := covered
    coverage_pct := coverage
    confidence_tier := confidenceTier coverage
    requested_min_itemset_support := ms
    effective_itemset_support := eff
    min_itemset_count := minc
    sod_risk := sod.risk
    sod_conflict_count := sod.conflicts.length
    sod_conflicts := sod.conflicts }

/-- The frequent single roles of a group, sorted
(`sorted([r for r, c in role_counts.items() if c >= min_role_count])`). -/
def frequentRoles (g : List Record) (minRoleCount : ℤ) : List String :=
  sortStrings (((g.map (·.ar_role_name)).dedup).filter
    (fun r => decide (minRoleCount ≤ (countUsersWithRole g r : ℤ))))

/-- The per-group body of `suggest_itemsets`: skip small groups, compute
the dynamic threshold, keep groups with at least two frequent roles, and
emit one row per qualifying k-itemset for k = 2..max_k (the `break` when
fewer than k frequent roles remain is the `takeWhile`). -/
def groupSuggestions (rules : List SodRule) (df : DataFrame) (gcols : List String)
    (minRoleSupport minItemsetSupport : ℚ) (maxK minGroupSize : ℕ)
    (k : List String) : List BundleRow :=
  let g := groupRecords df gcols k
  let n := (distinctUsers g).length
  if n < minGroupSize then []
  else
    let eff := effectiveItemsetSupport minItemsetSupport n
    let minRoleCount := ceilMulNat minRoleSupport n
    let minItemsetCount := ceilMulNat eff n
    let freq := frequentRoles g minRoleCount
    if freq.length < 2 then []
    else
      ((List.range' 2 (maxK - 1)).takeWhile (fun kk => decide (kk ≤ freq.length))).flatMap
        (fun kk =>
          ((List.sublistsLen kk freq).filter
            (fun cand => decide (minItemsetCount ≤ (coveredCount g cand : ℤ)))).map
            (fun cand =>
              mkBundleRow rules k cand kk n (coveredCount g cand)
                minItemsetSupport eff minItemsetCount))

/-- The `tier_rank` map with `fillna(9)`. -/
def tierRank (t : String) : ℕ :=
  if t = "STRONG" then 0 else if t = "MEDIUM" then 1 else if t = "WEAK" then 2 else 9

/-- The `sod_rank` map with `fillna(9)`. -/
def sodRank (s : String) : ℕ :=
  if s = "NONE" then 0 else if s = "LOW" then 1
  else if s = "MEDIUM" then 2 else if s = "HIGH" then 3 else 9

/-- The output order of `suggest_itemsets`: ascending tier rank, then
ascending SoD rank, then descending coverage, then descending size. -/
def rowLE (r1 r2 : BundleRow) : Prop :=
  tierRank r1.confidence_tier < tierRank r2.confidence_tier ∨
  (tierRank r1.confidence_tier = tierRank r2.confidence_tier ∧
    (sodRank r1.sod_risk < sodRank r2.sod_risk ∨
      (sodRank r1.sod_risk = sodRank r2.sod_risk ∧
        (r2.coverage_pct < r1.coverage_pct ∨
          (r2.coverage_pct = r1.coverage_pct ∧ r2.bundle_size ≤ r1.bundle_size)))))

instance decRowLE : DecidableRel rowLE := fun r1 r2 => by
  unfold rowLE; infer_instance

/-- Function `suggest_itemsets(df, group_cols, min_role_support,
min_itemset_support, max_k, min_group_size)`.  If a required column is
missing (or the frame is empty) the stable-schema empty result is
returned; otherwise rows are produced per group and globally sorted. -/
def suggestItemsets (rules : List SodRule) (df : DataFrame) (gcols : List String)
    (minRoleSupport minItemsetSupport : ℚ) (maxK minGroupSize : ℕ) :
    List BundleRow :=
  let required := ["user_id", "ar_role_name"] ++ gcols
  if required.all (fun c => decide (c ∈ df.cols)) then
    let keys := (df.rows.map (keyOf gcols)).dedup
    let rows := keys.flatMap
      (groupSuggestions rules df gcols minRoleSupport minItemsetSupport maxK minGroupSize)
    List.insertionSort rowLE rows
  else []

/-! ### `brb_core/metrics.py`

The metrics functions read dataframe columns without any guard, so a
missing required column raises `KeyError` in pandas; they are embedded
in `Except String` with the error thrown exactly when a referenced
column is absent. -/

structure RoleUsageRow where
  groupKey : List String
  ar_role_name : String
  users_with_role : ℕ
  users_in_group : ℕ
  role_coverage_pct : ℚ
deriving DecidableEq, Repr

/-- Group-key lexicographic order for the final
`sort_values(group_cols ascending, coverage descending)`. -/
def keyLE : List String → List String → Bool
  | [], _ => true
  | _ :: _, [] => false
  | a :: as, b :: bs =>
    if a = b then keyLE as bs
    else charListLE a.data b.data

def rusLE (r1 r2 : RoleUsageRow) : Prop :=
  (if r1.groupKey = r2.groupKey then r2.role_coverage_pct ≤ r1.role_coverage_pct
   else keyLE r1.groupKey r2.groupKey = true)

instance decRusLE : DecidableRel rusLE := fun r1 r2 => by
  unfold rusLE; infer_instance

/-- Function `role_usage_metrics(df, group_cols)`: per group and role, the number
of distinct users with the role over the group's distinct users. -/
def roleUsageMetrics (df : DataFrame) (gcols : List String) :
    Except String (List RoleUsageRow) :=
  if (gcols ++ ["user_id", "ar_role_name"]).all (fun c => decide (c ∈ df.cols)) then
    let keys := (df.rows.map (keyOf gcols)).dedup
    let rows := keys.flatMap (fun k =>
      let g := groupRecords df gcols k
      let n := (distinctUsers g).length
      ((g.map (·.ar_role_name)).dedup).map (fun r =>
        let c := countUsersWithRole g r
        RoleUsageRow.mk k r c n (pyRound2 (Rat.divInt ((c : ℤ) * 100) (n : ℤ)))))
    Except.ok (List.insertionSort rusLE rows)
  else Except.error "KeyError"

structure UserSummaryRow where
  user_id : String
  department : String
  job_code : String
  supervisor_level6 : String
  assignment_types : String
  role_count : ℕ
deriving DecidableEq, Repr

/-- The columns `user_access_summary` reads. -/
def uasRequiredCols : List String :=
  ["user_id", "ar_role_name", "department", "job_code", "supervisor_level6", "assignment_type"]

def usrLE (r1 r2 : UserSummaryRow) : Prop := r2.role_count ≤ r1.role_count

instance decUsrLE : DecidableRel usrLE := fun r1 r2 =>
  inferInstanceAs (Decidable (_ ≤ _))

/-- Function `user_access_summary(df)`: one row per distinct user with
first-observed metadata, the sorted-deduplicated assignment types joined
by commas, and the distinct-role count; sorted descending by role count. -/
def userAccessSummary (df : DataFrame) : Except String (List UserSummaryRow) :=
  if uasRequiredCols.all (fun c => decide (c ∈ df.cols)) then
    let users := sortStrings (df.rows.map (·.user_id)).dedup
    let rows := users.map (fun u =>
      let urows := df.rows.filter (fun r => decide (r.user_id = u))
      { user_id := u
        department := ((urows.head?).map (·.department)).getD ""
        job_code := ((urows.head?).map (·.job_code)).getD ""
        supervisor_level6 := ((urows.head?).map (·.supervisor_level6)).getD ""
        assignment_types := String.intercalate "," (sortDedupStr (urows.map (·.assignment_type)))
        role_count := ((urows.map (·.ar_role_name)).dedup).length })
    Except.ok (List.insertionSort usrLE rows)
  else Except.error "KeyError"

structure OverlapRow where
  role_a : String
  role_b : String
  common_users : ℕ
  union_users : ℕ
  jaccard : ℚ
deriving DecidableEq, Repr

def ovrLE (r1 r2 : OverlapRow) : Prop :=
  r2.jaccard < r1.jaccard ∨
  (r2.jaccard = r1.jaccard ∧ r2.common_users ≤ r1.common_users)

instance decOvrLE : DecidableRel ovrLE := fun r1 r2 => by
  unfold ovrLE; infer_instance

/-- Function `role_overlap_jaccard(df, min_common_users, top_n)`: Jaccard overlap
for every unordered pair of roles with at least `min_common_users`
common users, top-n by (jaccard, common_users) descending.
`df.groupby("ar_role_name")` raises when that column is absent; the
`user_id` column is read only inside the per-role-group loop
(`g["user_id"]`), which runs once per distinct role — so a missing
`user_id` raises exactly when the frame has at least one row, and a
frame with no rows returns the empty result. -/
def roleOverlapJaccard (df : DataFrame) (minCommonUsers topN : ℕ) :
    Except String (List OverlapRow) :=
  if "ar_role_name" ∈ df.cols then
    if df.rows ≠ [] ∧ "user_id" ∉ df.cols then Except.error "KeyError"
    else
      let roles := sortStrings (df.rows.map (·.ar_role_name)).dedup
      let usersOf := fun r =>
        ((df.rows.filter (fun x => decide (x.ar_role_name = r))).map (·.user_id)).dedup
      let results := (pairsOf roles).filterMap (fun p =>
        let ua := usersOf p.1
        let ub := usersOf p.2
        let inter := (ua.filter (fun u => decide (u ∈ ub))).length
        if inter < minCommonUsers then none
        else
          let uni := (ua ++ ub.filter (fun u => decide (u ∉ ua))).length
          some (OverlapRow.mk p.1 p.2 inter uni
            (if uni = 0 then 0 else pyRound4 (Rat.divInt (inter : ℤ) (uni : ℤ)))))
      Except.ok ((List.insertionSort ovrLE results).take topN)
  else Except.error "KeyError"

/-! ### `brb_core/new_joiner.py` -/

/-- The strength map `dict(zip(eligible roles, users_with_role)).get(r, 0)`. -/
def strengthOf (elig : List (String × ℕ)) (r : String) : ℕ :=
  (((elig.find? (fun x => decide (x.1 = r))).map (·.2)).getD 0)

/-- One iteration of `_remove_roles_for_high_conflicts`: if both roles
of the HIGH pair are still kept, drop the weaker (tie: drop the second). -/
def removeStep (strength : String → ℕ) (st : List String × List String)
    (p : String × String) : List String × List String :=
  if p.1 ∈ st.1 ∧ p.2 ∈ st.1 then
    let sa := strength p.1
    let sb := strength p.2
    let drop := if sa < sb then p.1 else if sb < sa then p.2 else p.2
    if drop ∈ st.1 then (st.1.erase drop, drop :: st.2) else st
  else st

/-- Function `_remove_roles_for_high_conflicts(roles, high_conflict_pairs,
role_strength)`: returns `(kept sorted, removed sorted)`. -/
def removeRolesForHighConflicts (roles : List String)
    (pairs : List (String × String)) (strength : String → ℕ) :
    List String × List String :=
  let st := pairs.foldl (removeStep strength) (roles.dedup, [])
  (sortStrings st.1, sortStrings st.2)

/-- The cohort filter: `job_code` always, then supervisor/department when
provided and non-blank after `strip()`. -/
def cohortOf (df : List Record) (jobCode : String)
    (supervisorLevel6 department : Option String) : List Record :=
  let c1 := df.filter (fun r => decide (r.job_code = jobCode))
  let c2 := match supervisorLevel6 with
    | some s => if s.trim ≠ "" then c1.filter (fun r => decide (r.supervisor_level6 = s.trim)) else c1
    | none => c1
  match department with
    | some d => if d.trim ≠ "" then c2.filter (fun r => decide (r.department = d.trim)) else c2
    | none => c2

/-- One output row of `recommend_access_for_new_joiner` (the `reason`
display string is abbreviated: the percentage interpolation of the
source is a float-formatting detail). -/
structure RecRow where
  job_code : String
  users_in_cohort : ℕ
  min_role_support : ℚ
  supervisor_level6 : String
  department : String
  ar_role_name : String
  users_with_role : ℕ
  coverage_pct : ℚ
  reason : String
  sod_risk : String
  sod_conflict_count : ℕ
  sod_conflicts : List HConflict
  sod_removed_roles : String
  sod_policy : String
deriving DecidableEq, Repr

/-- The string `f"block_high=... (explicit+heuristic)"`. -/
def sodPolicyStr (b : Bool) : String :=
  "block_high=" ++ (if b then "True" else "False") ++ " (explicit+heuristic)"

/-- Descending stable sort key for the per-role user counts
(`sort_values("users_with_role", ascending=False)`). -/
def cntGE (x y : String × ℕ) : Prop := y.2 ≤ x.2

instance decCntGE : DecidableRel cntGE := fun x y =>
  inferInstanceAs (Decidable (_ ≤ _))

/-- Step (3) of the new-joiner SoD pipeline: when `block_high_sod` is
set and heuristic conflicts were reported, collect the HIGH conflict
pairs, remove the weaker role of each, and re-assess on the survivors
so the reported risk matches the final set. -/
def heuristicEnforce (rules : List SodRule) (strength : String → ℕ)
    (keptRules : List String) (blockHighSod : Bool) :
    List String × List String × Assessment :=
  let heuristic0 := assessBundleSod rules keptRules
  if blockHighSod ∧ heuristic0.conflicts ≠ [] then
    let highPairs := heuristic0.conflicts.filterMap (fun c =>
      if strUpper c.severity = "HIGH" then some c.pair else none)
    if highPairs ≠ [] then
      let rem := removeRolesForHighConflicts keptRules highPairs strength
      (rem.1, rem.2, assessBundleSod rules rem.1)
    else (keptRules, [], heuristic0)
  else (keptRules, [], heuristic0)

/-- The output rows of the non-sentinel branch: only the eligible roles
that survived enforcement, each annotated with the (final) heuristic
assessment and the consolidated removal record. -/
def outRows (jobCode : String) (supervisorLevel6 department : Option String)
    (minRoleSupport : ℚ) (usersInCohort : ℕ) (blockHighSod : Bool)
    (eligible : List (String × ℕ)) (keptFinal removedAll : List String)
    (heuristic : Assessment) : List RecRow :=
  (eligible.filter (fun x => decide (x.1 ∈ keptFinal))).map (fun x =>
    { job_code := jobCode
      users_in_cohort := usersInCohort
      min_role_support := minRoleSupport
      supervisor_level6 := supervisorLevel6.getD ""
      department := department.getD ""
      ar_role_name := x.1
      users_with_role := x.2
      coverage_pct := pyRound2 (Rat.divInt ((x.2 : ℤ) * 100) (usersInCohort : ℤ))
      reason := "Role appears in " ++ toString x.2 ++ "/" ++ toString usersInCohort ++
        " users in cohort."
      sod_risk := heuristic.risk
      sod_conflict_count := heuristic.conflicts.length
      sod_conflicts := heuristic.conflicts
      sod_removed_roles := String.intercalate "," removedAll
      sod_policy := sodPolicyStr blockHighSod })

/-- The non-sentinel branch of `recommend_access_for_new_joiner`, from
the eligible role counts onward: explicit policy, heuristic assessment,
optional heuristic HIGH enforcement, and the output rows (only roles
that survived enforcement). -/
def recommendCore (rules : List SodRule) (jobCode : String)
    (supervisorLevel6 department : Option String) (minRoleSupport : ℚ)
    (usersInCohort : ℕ) (eligible : List (String × ℕ)) (blockHighSod : Bool) :
    List RecRow :=
  let candidates := eligible.map (·.1)
  let strength := strengthOf eligible
  let pol := applySodPolicy rules candidates blockHighSod
  let keptRules := pol.1
  let removedRules := pol.2.1
  let enf := heuristicEnforce rules strength keptRules blockHighSod
  let keptFinal := enf.1
  let removedAll := sortDedupStr (removedRules ++ enf.2.1)
  let heuristic := enf.2.2
  outRows jobCode supervisorLevel6 department minRoleSupport usersInCohort
    blockHighSod eligible keptFinal removedAll heuristic

/-- Function `recommend_access_for_new_joiner(df, job_code, supervisor_level6,
department, min_role_support, top_n, block_high_sod)`. -/
def recommendAccessForNewJoiner (rules : List SodRule) (df : List Record)
    (jobCode : String) (supervisorLevel6 department : Option String)
    (minRoleSupport : ℚ) (topN : ℕ) (blockHighSod : Bool) : List RecRow :=
  let cohort := cohortOf df jobCode supervisorLevel6 department
  let usersInCohort := (distinctUsers cohort).length
  if usersInCohort = 0 then
    [{ job_code := jobCode
       users_in_cohort := 0
       min_role_support := minRoleSupport
       supervisor_level6 := supervisorLevel6.getD ""
       department := department.getD ""
       ar_role_name := ""
       users_with_role := 0
       coverage_pct := 0
       reason := "No users found for this cohort."
       sod_risk := "LOW"
       sod_conflict_count := 0
       sod_conflicts := []
       sod_removed_roles := ""
       sod_policy := sodPolicyStr blockHighSod }]
  else
    let minCount := ceilMulNat minRoleSupport usersInCohort
    let names := sortStrings ((cohort.map (·.ar_role_name)).dedup)
    let counted := names.map (fun r => (r, countUsersWithRole cohort r))
    let sortedCounts := List.insertionSort cntGE counted
    let eligible := (sortedCounts.filter (fun x => decide (minCount ≤ (x.2 : ℤ)))).take topN
    recommendCore rules jobCode supervisorLevel6 department minRoleSupport
      usersInCohort eligible blockHighSod

/-! ### Concrete sample data (used by witnesses) -/

/-- A small concrete extract: one group `("S1", "J1")` with two users,
both holding roles `"r1"` and `"r2"`. -/
def sampleDF : DataFrame :=
  DataFrame.mk
    ["user_id", "ar_role_name", "assignment_type", "job_code", "department",
     "supervisor_level6"]
    [Record.mk "u1" "r1" "direct" "J1" "D1" "S1",
     Record.mk "u1" "r2" "direct" "J1" "D1" "S1",
     Record.mk "u2" "r1" "direct" "J1" "D1" "S1",
     Record.mk "u2" "r2" "direct" "J1" "D1" "S1"]

/-- The single suggestion `suggest_itemsets` emits on `sampleDF` with
both supports 0.5, `max_k = 2`, `min_group_size = 1`. -/
def sampleRow : BundleRow :=
  BundleRow.mk ["S1", "J1"] ["r1", "r2"] 2 2 2 100 "STRONG"
    (mkRat 1 2) (mkRat 1 2) 1 "LOW" 0 []

/-! ### Helper lemmas: the string order -/

theorem charListLE_refl : ∀ a, charListLE a a = true
  | [] => rfl
  | c :: cs => by
    simp only [charListLE, lt_irrefl, if_false]
    exact charListLE_refl cs

theorem charListLE_total : ∀ a b, charListLE a b = true ∨ charListLE b a = true
  | [], _ => Or.inl rfl
  | _ :: _, [] => Or.inr rfl
  | a :: as, b :: bs => by
    simp only [charListLE]
    rcases Nat.lt_trichotomy a.toNat b.toNat with h | h | h
    · left; simp [h]
    · have h1 : ¬ a.toNat < b.toNat := by omega
      have h2 : ¬ b.toNat < a.toNat := by omega
      simp only [h1, if_false, h2]
      exact charListLE_total as bs
    · right; simp [h, Nat.lt_asymm h]

theorem charListLE_trans : ∀ a b c, charListLE a b = true → charListLE b c = true →
    charListLE a c = true
  | [], _, _, _, _ => rfl
  | _ :: _, [], _, h1, _ => by simp [charListLE] at h1
  | _ :: _, _ :: _, [], _, h2 => by simp [charListLE] at h2
  | a :: as, b :: bs, c :: cs, h1, h2 => by
    simp only [charListLE] at h1 h2 ⊢
    rcases Nat.lt_trichotomy a.toNat b.toNat with hab | hab | hab <;>
      rcases Nat.lt_trichotomy b.toNat c.toNat with hbc | hbc | hbc
    all_goals first
      | (have hac : a.toNat < c.toNat := by omega
         simp [hac])
      | (simp only [show ¬ a.toNat < b.toNat from by omega, if_false,
          show ¬ b.toNat < a.toNat from by omega] at h1
         simp only [show ¬ b.toNat < c.toNat from by omega, if_false,
          show ¬ c.toNat < b.toNat from by omega] at h2
         have hac1 : ¬ a.toNat < c.toNat := by omega
         have hac2 : ¬ c.toNat < a.toNat := by omega
         simp only [hac1, if_false, hac2]
         exact charListLE_trans as bs cs h1 h2)
      | (exfalso
         simp [show ¬ a.toNat < b.toNat from by omega,
           show b.toNat < a.toNat from by omega] at h1)
      | (exfalso
         simp [show ¬ b.toNat < c.toNat from by omega,
           show c.toNat < b.toNat from by omega] at h2)

theorem charListLE_antisymm : ∀ a b, charListLE a b = true → charListLE b a = true →
    a = b
  | [], [], _, _ => rfl
  | [], _ :: _, _, h2 => by simp [charListLE] at h2
  | _ :: _, [], h1, _ => by simp [charListLE] at h1
  | a :: as, b :: bs, h1, h2 => by
    simp only [charListLE] at h1 h2
    rcases Nat.lt_trichotomy a.toNat b.toNat with hab | hab | hab
    · exfalso; simp [Nat.lt_asymm hab, hab] at h2
    · simp only [show ¬ a.toNat < b.toNat from by omega, if_false,
        show ¬ b.toNat < a.toNat from by omega] at h1 h2
      have := charListLE_antisymm as bs h1 h2
      have hc : a = b := Char.ext (UInt32.ext hab)
      rw [hc, this]
    · exfalso; simp [Nat.lt_asymm hab, hab] at h1

theorem strLE_total : ∀ a b : String, strLE a b ∨ strLE b a :=
  fun a b => charListLE_total a.data b.data

theorem strLE_trans : ∀ a b c : String, strLE a b → strLE b c → strLE a c :=
  fun a b c => charListLE_trans a.data b.data c.data

theorem strLE_antisymm : ∀ a b : String, strLE a b → strLE b a → a = b :=
  fun _ _ h1 h2 => String.ext (charListLE_antisymm _ _ h1 h2)

theorem mem_sortStrings {a : String} {l : List String} :
    a ∈ sortStrings l ↔ a ∈ l :=
  List.mem_insertionSort strLE

theorem sorted_sortStrings (l : List String) : (sortStrings l).Sorted strLE := by
  haveI : IsTotal String strLE := ⟨strLE_total⟩
  haveI : IsTrans String strLE := ⟨strLE_trans⟩
  exact List.sorted_insertionSort strLE l

theorem nodup_sortStrings {l : List String} (h : l.Nodup) :
    (sortStrings l).Nodup :=
  ((List.perm_insertionSort strLE l).nodup_iff).mpr h

theorem mem_sortDedupStr {a : String} {l : List String} :
    a ∈ sortDedupStr l ↔ a ∈ l := by
  rw [sortDedupStr, mem_sortStrings, List.mem_dedup]

theorem nodup_sortDedupStr (l : List String) : (sortDedupStr l).Nodup :=
  nodup_sortStrings (List.nodup_dedup l)

theorem sorted_sortDedupStr (l : List String) : (sortDedupStr l).Sorted strLE :=
  sorted_sortStrings l.dedup

/-- Canonicalization is determined by membership alone. -/
theorem sortDedupStr_eq_of_mem_iff {l1 l2 : List String}
    (h : ∀ x, x ∈ l1 ↔ x ∈ l2) : sortDedupStr l1 = sortDedupStr l2 := by
  haveI : IsAntisymm String strLE := ⟨strLE_antisymm⟩
  refine List.eq_of_perm_of_sorted ?_ (sorted_sortDedupStr l1) (sorted_sortDedupStr l2)
  refine (List.perm_ext_iff_of_nodup (nodup_sortDedupStr l1) (nodup_sortDedupStr l2)).mpr ?_
  intro a
  rw [mem_sortDedupStr, mem_sortDedupStr]
  exact h a

/-! ### Helper lemmas: `pairsOf` and `dedupSeen` -/

theorem mem_pairsOf_of_sublist {α : Type} {a b : α} :
    ∀ {l : List α}, [a, b].Sublist l → (a, b) ∈ pairsOf l := by
  intro l h
  induction l with
  | nil => cases h
  | cons x xs ih =>
    cases h with
    | cons _ h' =>
      exact List.mem_append_right _ (ih h')
    | cons₂ _ h' =>
      refine List.mem_append_left _ ?_
      exact List.mem_map.mpr ⟨b, List.singleton_sublist.mp h', rfl⟩

/-- In a `strLE`-sorted duplicate-free list, any two distinct members in
order form a sublist. -/
theorem sublist_pair_of_sorted_nodup {a b : String} :
    ∀ {l : List String}, l.Sorted strLE → l.Nodup → a ∈ l → b ∈ l →
      strLE a b → a ≠ b → [a, b].Sublist l := by
  intro l hs hn ha hb hle hne
  induction l with
  | nil => cases ha
  | cons x xs ih =>
    rcases List.mem_cons.mp ha with rfl | ha'
    · have hb' : b ∈ xs := by
        rcases List.mem_cons.mp hb with rfl | hb'
        · exact absurd rfl hne
        · exact hb'
      exact List.Sublist.cons₂ a (List.singleton_sublist.mpr hb')
    · have hbx : b ≠ x := by
        rintro rfl
        have hxa : strLE b a := (List.pairwise_cons.mp hs).1 a ha'
        exact hne (strLE_antisymm a b hle hxa)
      have hb' : b ∈ xs := by
        rcases List.mem_cons.mp hb with rfl | hb'
        · exact absurd rfl hbx
        · exact hb'
      exact List.Sublist.cons x
        (ih (List.pairwise_cons.mp hs).2 (List.nodup_cons.mp hn).2 ha' hb')

theorem mem_dedupSeen {α : Type} [DecidableEq α] {x : α} :
    ∀ (seen l : List α), x ∈ dedupSeen seen l ↔ x ∈ l ∧ x ∉ seen
  | seen, [] => by simp [dedupSeen]
  | seen, y :: ys => by
    by_cases hy : y ∈ seen
    · rw [show dedupSeen seen (y :: ys) = dedupSeen seen ys from by
        simp [dedupSeen, hy], mem_dedupSeen seen ys]
      constructor
      · rintro ⟨h1, h2⟩
        exact ⟨List.mem_cons_of_mem _ h1, h2⟩
      · rintro ⟨h1, h2⟩
        rcases List.mem_cons.mp h1 with rfl | h1
        · exact absurd hy h2
        · exact ⟨h1, h2⟩
    · rw [show dedupSeen seen (y :: ys) = y :: dedupSeen (y :: seen) ys from by
        simp [dedupSeen, hy], List.mem_cons, mem_dedupSeen (y :: seen) ys]
      constructor
      · rintro (rfl | ⟨h1, h2⟩)
        · exact ⟨List.mem_cons_self _ _, hy⟩
        · exact ⟨List.mem_cons_of_mem _ h1, fun hx => h2 (List.mem_cons_of_mem _ hx)⟩
      · rintro ⟨h1, h2⟩
        rcases List.mem_cons.mp h1 with rfl | h1
        · exact Or.inl rfl
        · by_cases hxy : x = y
          · exact Or.inl hxy
          · refine Or.inr ⟨h1, fun hx => ?_⟩
            rcases List.mem_cons.mp hx with h | h
            · exact hxy h
            · exact h2 h

/-! ### Helper lemmas: rational bridges -/

theorem ratFloor_eq_intFloor (q : ℚ) : q.floor = ⌊q⌋ := by
  rw [Rat.floor_def' q, Rat.floor_def]

theorem ceilOf_eq (q : ℚ) : ceilOf q = ⌈q⌉ := by
  unfold ceilOf
  by_cases h : q.den = 1
  · have hq : (q.num : ℚ) = q := (Rat.den_eq_one_iff q).mp h
    rw [if_pos h]
    calc q.num = ⌈(q.num : ℚ)⌉ := (Int.ceil_intCast q.num).symm
      _ = ⌈q⌉ := by rw [hq]
  · rw [if_neg h, ratFloor_eq_intFloor]
    symm
    rw [Int.ceil_eq_iff]
    constructor
    · push_cast
      have h1 : (⌊q⌋ : ℚ) ≤ q := Int.floor_le q
      have h2 : (⌊q⌋ : ℚ) ≠ q := by
        intro he
        have : q.den = 1 := by rw [← he]; exact Rat.den_intCast _
        exact h this
      have : (⌊q⌋ : ℚ) < q := lt_of_le_of_ne h1 h2
      linarith
    · push_cast
      have := Int.lt_floor_add_one q
      linarith

theorem ceilMulNat_eq (q : ℚ) (n : ℕ) : ceilMulNat q n = ⌈q * n⌉ := by
  unfold ceilMulNat
  rw [ceilOf_eq]
  congr 1
  rw [Rat.divInt_eq_div]
  push_cast
  rw [mul_comm (q.num : ℚ) (n : ℚ), mul_div_assoc, Rat.num_div_den q, mul_comm]

theorem mkRat_three_fifths : mkRat 3 5 = (3 / 5 : ℚ) := by
  rw [Rat.mkRat_eq_div]; norm_num

theorem mkRat_thirteen_twentieths : mkRat 13 20 = (13 / 20 : ℚ) := by
  rw [Rat.mkRat_eq_div]; norm_num

/-! ### Helper lemmas: the explicit-policy removal loop -/

theorem sodStep_kept_subset {st : List String × List String} {c : RuleConflict}
    {r : String} (h : r ∈ (sodStep st c).1) : r ∈ st.1 := by
  unfold sodStep at h
  split at h
  · split at h
    · exact List.mem_of_mem_erase h
    · exact h
  · exact h

theorem sodStep_removed_mono {st : List String × List String} {c : RuleConflict}
    {r : String} (h : r ∈ st.2) : r ∈ (sodStep st c).2 := by
  unfold sodStep
  split
  · split
    · exact List.mem_cons_of_mem _ h
    · exact h
  · exact h

theorem sodStep_union {st : List String × List String} {c : RuleConflict}
    {r : String} : (r ∈ (sodStep st c).1 ∨ r ∈ (sodStep st c).2) ↔
      (r ∈ st.1 ∨ r ∈ st.2) := by
  unfold sodStep
  split
  · split
    · rename_i hb
      constructor
      · rintro (h | h)
        · exact Or.inl (List.mem_of_mem_erase h)
        · rcases List.mem_cons.mp h with rfl | h
          · exact Or.inl hb
          · exact Or.inr h
      · rintro (h | h)
        · by_cases hrb : r = c.b
          · exact Or.inr (List.mem_cons.mpr (Or.inl hrb))
          · exact Or.inl ((List.mem_erase_of_ne hrb).mpr h)
        · exact Or.inr (List.mem_cons_of_mem _ h)
    · exact Iff.rfl
  · exact Iff.rfl

/-- The invariant of the removal loop: kept is duplicate-free and
disjoint from removed. -/
def sodInv (st : List String × List String) : Prop :=
  st.1.Nodup ∧ ∀ r, r ∈ st.2 → r ∉ st.1

theorem sodStep_inv {st : List String × List String} {c : RuleConflict}
    (h : sodInv st) : sodInv (sodStep st c) := by
  obtain ⟨hn, hd⟩ := h
  unfold sodStep
  split
  · split
    · refine ⟨hn.erase _, fun r hr => ?_⟩
      rcases List.mem_cons.mp hr with rfl | hr
      · intro hmem
        exact ((hn.mem_erase_iff.mp hmem).1) rfl
      · intro hmem
        exact hd r hr (List.mem_of_mem_erase hmem)
    · exact ⟨hn, hd⟩
  · exact ⟨hn, hd⟩

theorem sodFoldl_kept_subset :
    ∀ (cs : List RuleConflict) (st : List String × List String) {r : String},
      r ∈ (cs.foldl sodStep st).1 → r ∈ st.1
  | [], _, _, h => h
  | c :: cs, st, _, h =>
    sodStep_kept_subset (sodFoldl_kept_subset cs (sodStep st c) h)

theorem sodFoldl_removed_mono :
    ∀ (cs : List RuleConflict) (st : List String × List String) {r : String},
      r ∈ st.2 → r ∈ (cs.foldl sodStep st).2
  | [], _, _, h => h
  | c :: cs, st, _, h =>
    sodFoldl_removed_mono cs (sodStep st c) (sodStep_removed_mono h)

theorem sodFoldl_union :
    ∀ (cs : List RuleConflict) (st : List String × List String) (r : String),
      (r ∈ (cs.foldl sodStep st).1 ∨ r ∈ (cs.foldl sodStep st).2) ↔
        (r ∈ st.1 ∨ r ∈ st.2)
  | [], _, _ => Iff.rfl
  | c :: cs, st, r =>
    (sodFoldl_union cs (sodStep st c) r).trans sodStep_union

theorem sodFoldl_inv :
    ∀ (cs : List RuleConflict) (st : List String × List String),
      sodInv st → sodInv (cs.foldl sodStep st)
  | [], _, h => h
  | c :: cs, st, h => sodFoldl_inv cs (sodStep st c) (sodStep_inv h)

/-- Every HIGH conflict whose `b` is in play ends up with `b` removed. -/
theorem sodFoldl_high_b_removed :
    ∀ (cs : List RuleConflict) (st : List String × List String) (c : RuleConflict),
      c ∈ cs → c.severity = "HIGH" → (c.b ∈ st.1 ∨ c.b ∈ st.2) →
      c.b ∈ (cs.foldl sodStep st).2 := by
  intro cs
  induction cs with
  | nil => intro _ _ h; cases h
  | cons c0 cs ih =>
    intro st c hmem hsev hin
    rcases List.mem_cons.mp hmem with rfl | hmem
    · refine sodFoldl_removed_mono cs (sodStep st c) ?_
      unfold sodStep
      rw [if_pos hsev]
      rcases hin with hin | hin
      · rw [if_pos hin]
        exact List.mem_cons_self _ _
      · split
        · exact List.mem_cons_of_mem _ hin
        · exact hin
    · exact ih (sodStep st c0) c hmem hsev (sodStep_union.mpr hin)

/-- Anything removed is the `b` of some HIGH conflict processed. -/
theorem sodFoldl_removed_from_high :
    ∀ (cs : List RuleConflict) (st : List String × List String) (r : String),
      r ∈ (cs.foldl sodStep st).2 →
      r ∈ st.2 ∨ ∃ c ∈ cs, c.severity = "HIGH" ∧ c.b = r := by
  intro cs
  induction cs with
  | nil => intro _ _ h; exact Or.inl h
  | cons c0 cs ih =>
    intro st r h
    rcases ih (sodStep st c0) r h with h' | ⟨c, hc, hsev, hb⟩
    · unfold sodStep at h'
      split at h'
      · rename_i hsev0
        split at h'
        · rcases List.mem_cons.mp h' with rfl | h'
          · exact Or.inr ⟨c0, List.mem_cons_self _ _, hsev0, rfl⟩
          · exact Or.inl h'
        · exact Or.inl h'
      · exact Or.inl h'
    · exact Or.inr ⟨c, List.mem_cons_of_mem _ hc, hsev, hb⟩

/-- Conflicts reported by `detect_sod_conflicts` come from a configured
rule whose two roles are present. -/
theorem mem_detectSodConflicts {rules : List SodRule} {roles : List String}
    {c : RuleConflict} (h : c ∈ detectSodConflicts rules roles) :
    c.a ∈ roles ∧ c.b ∈ roles ∧
      ∃ ru ∈ rules, c = RuleConflict.mk ru.a ru.b (strUpper ru.severity) ru.reason := by
  unfold detectSodConflicts at h
  rw [List.mem_insertionSort] at h
  obtain ⟨ru, hru, rfl⟩ := List.mem_map.mp h
  obtain ⟨hru', hcond⟩ := List.mem_filter.mp hru
  obtain ⟨ha, hb⟩ := of_decide_eq_true hcond
  exact ⟨ha, hb, ru, hru', rfl⟩

/-! ### Claim C4 -/

/-- C4: with `block_high = true`, `apply_sod_policy` removes, for each
HIGH explicit conflict (both roles present by construction of
`detect_sod_conflicts`), the rule's second-listed role `b`; every removed
role is the `b` of some HIGH conflict (so MEDIUM/LOW conflicts never
cause a removal, and no `a` is removed except when it is another rule's
`b`); and on the configured rule {a: "A", b: "B", severity: HIGH},
`apply_policy(["A","B"], block_high=True)` keeps `A` and removes `B`. -/
theorem c4_policy_removes_second_role (rules : List SodRule) (candidate : List String) :
    (∀ c ∈ (applySodPolicy rules candidate true).2.2, c.severity = "HIGH" →
      c.b ∈ (applySodPolicy rules candidate true).2.1) ∧
    (∀ r ∈ (applySodPolicy rules candidate true).2.1,
      ∃ c ∈ (applySodPolicy rules candidate true).2.2, c.severity = "HIGH" ∧ c.b = r) ∧
    applySodPolicy [SodRule.mk "A" "B" "HIGH" "x"] ["A", "B"] true =
      (["A"], ["B"], [RuleConflict.mk "A" "B" "HIGH" "x"]) := by
  have h22 : (applySodPolicy rules candidate true).2.2 =
      detectSodConflicts rules (sortDedupStr candidate) := rfl
  have h21 : (applySodPolicy rules candidate true).2.1 =
      sortDedupStr ((detectSodConflicts rules (sortDedupStr candidate)).foldl
        sodStep (sortDedupStr candidate, [])).2 := rfl
  refine ⟨?_, ?_, by decide⟩
  · intro c hc hsev
    rw [h22] at hc
    rw [h21, mem_sortDedupStr]
    refine sodFoldl_high_b_removed _ _ c hc hsev (Or.inl ?_)
    exact (mem_detectSodConflicts hc).2.1
  · intro r hr
    rw [h21, mem_sortDedupStr] at hr
    rcases sodFoldl_removed_from_high _ _ r hr with h | ⟨c, hc, hsev, hb⟩
    · cases h
    · rw [h22]
      exact ⟨c, hc, hsev, hb⟩

/-- Witness for C4 at the configured example rule. -/
theorem c4_witness :
    "B" ∈ (applySodPolicy [SodRule.mk "A" "B" "HIGH" "x"] ["A", "B"] true).2.1 :=
  (c4_policy_removes_second_role [SodRule.mk "A" "B" "HIGH" "x"] ["A", "B"]).1
    (RuleConflict.mk "A" "B" "HIGH" "x") (by decide) rfl

/-! ### Claim C10 -/

/-- C10: for every input role collection and flag, the kept and removed
lists of `apply_sod_policy` are disjoint and together hold exactly the
distinct input roles; with `block_high = false` nothing is removed. -/
theorem c10_kept_removed_partition (rules : List SodRule) (candidate : List String)
    (block : Bool) :
    (∀ r, ¬(r ∈ (applySodPolicy rules candidate block).1 ∧
            r ∈ (applySodPolicy rules candidate block).2.1)) ∧
    (∀ r, (r ∈ (applySodPolicy rules candidate block).1 ∨
           r ∈ (applySodPolicy rules candidate block).2.1) ↔ r ∈ candidate) ∧
    (applySodPolicy rules candidate false).2.1 = [] := by
  refine ⟨?_, ?_, rfl⟩
  · intro r ⟨hk, hr⟩
    cases block
    · have : r ∈ ([] : List String) := mem_sortDedupStr.mp hr
      cases this
    · have hk' : r ∈ ((detectSodConflicts rules (sortDedupStr candidate)).foldl
          sodStep (sortDedupStr candidate, [])).1 :=
        mem_sortStrings.mp hk
      have hr' : r ∈ ((detectSodConflicts rules (sortDedupStr candidate)).foldl
          sodStep (sortDedupStr candidate, [])).2 :=
        mem_sortDedupStr.mp hr
      have hinv : sodInv ((detectSodConflicts rules (sortDedupStr candidate)).foldl
          sodStep (sortDedupStr candidate, [])) :=
        sodFoldl_inv _ _ ⟨nodup_sortDedupStr candidate, by intro r h; cases h⟩
      exact hinv.2 r hr' hk'
  · intro r
    cases block
    · rw [show (applySodPolicy rules candidate false).1 =
          sortStrings (sortDedupStr candidate) from rfl,
        show (applySodPolicy rules candidate false).2.1 = ([] : List String) from rfl]
      constructor
      · rintro (h | h)
        · exact mem_sortDedupStr.mp (mem_sortStrings.mp h)
        · cases h
      · intro h
        exact Or.inl (mem_sortStrings.mpr (mem_sortDedupStr.mpr h))
    · rw [show (applySodPolicy rules candidate true).1 =
          sortStrings ((detectSodConflicts rules (sortDedupStr candidate)).foldl
            sodStep (sortDedupStr candidate, [])).1 from rfl,
        show (applySodPolicy rules candidate true).2.1 =
          sortDedupStr ((detectSodConflicts rules (sortDedupStr candidate)).foldl
            sodStep (sortDedupStr candidate, [])).2 from rfl,
        mem_sortStrings, mem_sortDedupStr]
      rw [sodFoldl_union]
      constructor
      · rintro (h | h)
        · exact mem_sortDedupStr.mp h
        · cases h
      · intro h
        exact Or.inl (mem_sortDedupStr.mpr h)

/-- Witness for C10. -/
theorem c10_witness :
    ("A" ∈ (applySodPolicy SOD_RULES ["A", "A", "B"] true).1 ∨
     "A" ∈ (applySodPolicy SOD_RULES ["A", "A", "B"] true).2.1) :=
  ((c10_kept_removed_partition SOD_RULES ["A", "A", "B"] true).2.1 "A").mpr (by decide)

/-! ### Helper lemmas: the heuristic assessment -/

/-- With the shipped (empty) explicit rule table, the conflicts of
`assess_bundle_sod` are exactly the heuristic pair conflicts over the
canonicalized role list. -/
theorem mem_assess_conflicts_iff {roles : List String} {c : HConflict} :
    c ∈ (assessBundleSod SOD_RULES roles).conflicts ↔
      ∃ p ∈ pairsOf (sortDedupStr roles), c ∈ pairConflicts p.1 p.2 := by
  have h0 : (assessBundleSod SOD_RULES roles).conflicts =
      dedupSeen [] ((pairsOf (sortDedupStr roles)).flatMap
        (fun p => pairConflicts p.1 p.2)) := rfl
  rw [h0, mem_dedupSeen]
  simp only [List.not_mem_nil, not_false_iff, and_true]
  exact List.mem_flatMap

/-- Every heuristic pair conflict carries severity HIGH or MEDIUM. -/
theorem mem_pairConflicts_severity {x y : String} {c : HConflict}
    (h : c ∈ pairConflicts x y) : c.severity = "HIGH" ∨ c.severity = "MEDIUM" := by
  unfold pairConflicts at h
  rcases List.mem_append.mp h with h | h
  · split at h
    · rcases List.mem_singleton.mp h with rfl
      by_cases hf : ((keywordFlags x).finance || (keywordFlags y).finance) = true
      · left; simp [hf]
      · right; simp [Bool.not_eq_true] at hf; simp [hf]
    · cases h
  · split at h
    · rcases List.mem_singleton.mp h with rfl
      right; rfl
    · cases h

/-! ### Claim C1 -/

/-- Counterexample to C1 as stated: `"payment_approve"` matches the
approval bucket (and also the finance bucket), `"admin"` matches only
the high-privilege bucket (not finance).  The claim predicts a
MEDIUM-severity conflict for this pair (approval with
merely-high-privilege), but the code flags it HIGH — the severity test
`fa["finance"] or fb["finance"]` looks at either role of the pair, so
the approval role's own finance match upgrades the severity — and no
MEDIUM conflict is reported at all; overall risk is HIGH. -/
theorem c1_counterexample :
    (keywordFlags "payment_approve").approval = true ∧
    (keywordFlags "payment_approve").high_priv = false ∧
    (keywordFlags "admin").high_priv = true ∧
    (keywordFlags "admin").finance = false ∧
    (keywordFlags "admin").approval = false ∧
    assessBundleSod SOD_RULES ["payment_approve", "admin"] =
      Assessment.mk "HIGH" [HConflict.mk ("admin", "payment_approve") "HIGH" mcRationale] ∧
    ¬ ∃ c ∈ (assessBundleSod SOD_RULES ["payment_approve", "admin"]).conflicts,
        c.severity = "MEDIUM" := by
  refine ⟨by decide, by decide, by decide, by decide, by decide, by decide, by decide⟩

/-- C1 (amended): for distinct roles `a`, `b` of the bundle taken in
canonical order, the maker-checker conflict is flagged whenever one
role matches approval and the other matches finance or high-privilege,
with severity HIGH when EITHER role of the pair matches finance
(not only when the non-approval role does) and MEDIUM when neither
does; a MEDIUM conflict is flagged when both roles match
high-privilege; and the reported risk is the maximum severity over the
flagged conflicts, LOW when none are flagged. -/
theorem c1_heuristic_pairs (roles : List String) (a b : String)
    (ha : a ∈ roles) (hb : b ∈ roles) (hne : a ≠ b) (hord : strLE a b) :
    (((keywordFlags a).approval && ((keywordFlags b).finance || (keywordFlags b).high_priv) ||
      (keywordFlags b).approval && ((keywordFlags a).finance || (keywordFlags a).high_priv)) = true →
      HConflict.mk (a, b)
        (if (keywordFlags a).finance || (keywordFlags b).finance then "HIGH" else "MEDIUM")
        mcRationale ∈ (assessBundleSod SOD_RULES roles).conflicts) ∧
    ((keywordFlags a).high_priv = true → (keywordFlags b).high_priv = true →
      HConflict.mk (a, b) "MEDIUM" ppRationale ∈ (assessBundleSod SOD_RULES roles).conflicts) ∧
    (∀ c ∈ (assessBundleSod SOD_RULES roles).conflicts,
      severityRank c.severity ≤ severityRank (assessBundleSod SOD_RULES roles).risk) ∧
    ((assessBundleSod SOD_RULES roles).conflicts = [] →
      (assessBundleSod SOD_RULES roles).risk = "LOW") ∧
    ((assessBundleSod SOD_RULES roles).conflicts ≠ [] →
      ∃ c ∈ (assessBundleSod SOD_RULES roles).conflicts,
        c.severity = (assessBundleSod SOD_RULES roles).risk) := by
  have ha' : a ∈ sortDedupStr roles := mem_sortDedupStr.mpr ha
  have hb' : b ∈ sortDedupStr roles := mem_sortDedupStr.mpr hb
  have hp : (a, b) ∈ pairsOf (sortDedupStr roles) :=
    mem_pairsOf_of_sublist (sublist_pair_of_sorted_nodup
      (sorted_sortDedupStr roles) (nodup_sortDedupStr roles) ha' hb' hord hne)
  have hsev : ∀ c ∈ (assessBundleSod SOD_RULES roles).conflicts,
      c.severity = "HIGH" ∨ c.severity = "MEDIUM" := by
    intro c hc
    obtain ⟨p, _, hcp⟩ := mem_assess_conflicts_iff.mp hc
    exact mem_pairConflicts_severity hcp
  have hrisk : (assessBundleSod SOD_RULES roles).risk =
      (if (assessBundleSod SOD_RULES roles).conflicts.any
          (fun c => c.severity == "HIGH") then "HIGH"
       else if (assessBundleSod SOD_RULES roles).conflicts.any
          (fun c => c.severity == "MEDIUM") then "MEDIUM"
       else "LOW") := rfl
  refine ⟨?_, ?_, ?_, ?_, ?_⟩
  · intro hcond
    refine mem_assess_conflicts_iff.mpr ⟨(a, b), hp, ?_⟩
    unfold pairConflicts
    refine List.mem_append_left _ ?_
    rw [if_pos hcond]
    exact List.mem_singleton.mpr rfl
  · intro h1 h2
    refine mem_assess_conflicts_iff.mpr ⟨(a, b), hp, ?_⟩
    unfold pairConflicts
    refine List.mem_append_right _ ?_
    rw [if_pos (by rw [h1, h2]; rfl)]
    exact List.mem_singleton.mpr rfl
  · intro c hc
    by_cases h1 : (assessBundleSod SOD_RULES roles).conflicts.any
        (fun c => c.severity == "HIGH") = true
    · rw [hrisk, if_pos h1]
      rcases hsev c hc with h | h <;> simp [severityRank, h]
    · rw [hrisk, if_neg h1]
      rcases hsev c hc with h | h
      · exact absurd (List.any_eq_true.mpr ⟨c, hc, by rw [h]; rfl⟩) h1
      · split
        · simp [severityRank, h]
        · rename_i h2
          exact absurd (List.any_eq_true.mpr ⟨c, hc, by rw [h]; rfl⟩) h2
  · intro hnil
    rw [hrisk, hnil]
    rfl
  · intro hne'
    by_cases h1 : (assessBundleSod SOD_RULES roles).conflicts.any
        (fun c => c.severity == "HIGH") = true
    · obtain ⟨c, hc, hcs⟩ := List.any_eq_true.mp h1
      refine ⟨c, hc, ?_⟩
      rw [hrisk, if_pos h1]
      exact eq_of_beq hcs
    · by_cases h2 : (assessBundleSod SOD_RULES roles).conflicts.any
          (fun c => c.severity == "MEDIUM") = true
      · obtain ⟨c, hc, hcs⟩ := List.any_eq_true.mp h2
        refine ⟨c, hc, ?_⟩
        rw [hrisk, if_neg h1, if_pos h2]
        exact eq_of_beq hcs
      · exfalso
        apply hne'
        rw [List.eq_nil_iff_forall_not_mem]
        intro c hc
        rcases hsev c hc with h | h
        · exact h1 (List.any_eq_true.mpr ⟨c, hc, by rw [h]; rfl⟩)
        · exact h2 (List.any_eq_true.mpr ⟨c, hc, by rw [h]; rfl⟩)

/-- Witness for C1 (amended): an approval role with a finance role. -/
theorem c1_witness :
    HConflict.mk ("approve_x", "fin_y")
      (if (keywordFlags "approve_x").finance || (keywordFlags "fin_y").finance
       then "HIGH" else "MEDIUM")
      mcRationale ∈ (assessBundleSod SOD_RULES ["approve_x", "fin_y"]).conflicts :=
  (c1_heuristic_pairs ["approve_x", "fin_y"] "approve_x" "fin_y" (by decide) (by decide)
    (by decide) (by decide)).1 (by decide)

/-! ### Helper lemmas: the mining engine -/

theorem mem_frequentRoles {g : List Record} {m : ℤ} {role : String} :
    role ∈ frequentRoles g m ↔
      role ∈ (g.map (·.ar_role_name)).dedup ∧ m ≤ (countUsersWithRole g role : ℤ) := by
  unfold frequentRoles
  rw [mem_sortStrings, List.mem_filter, decide_eq_true_iff]

/-- What membership in a group's suggestion list guarantees. -/
theorem mem_groupSuggestions {rules : List SodRule} {df : DataFrame}
    {gcols : List String} {mrs mis : ℚ} {maxK mgs : ℕ} {k : List String}
    {row : BundleRow}
    (h : row ∈ groupSuggestions rules df gcols mrs mis maxK mgs k) :
    row.groupKey = k ∧
    row.users_in_group = (distinctUsers (groupRecords df gcols k)).length ∧
    mgs ≤ (distinctUsers (groupRecords df gcols k)).length ∧
    row.effective_itemset_support =
      effectiveItemsetSupport mis (distinctUsers (groupRecords df gcols k)).length ∧
    2 ≤ (frequentRoles (groupRecords df gcols k)
      (ceilMulNat mrs (distinctUsers (groupRecords df gcols k)).length)).length ∧
    2 ≤ row.bundle_size ∧
    (∀ role ∈ row.bundle_roles,
      role ∈ frequentRoles (groupRecords df gcols k)
        (ceilMulNat mrs (distinctUsers (groupRecords df gcols k)).length)) := by
  simp only [groupSuggestions] at h
  split at h
  · cases h
  · rename_i hn
    split at h
    · cases h
    · rename_i hfreq
      obtain ⟨kk, hkk, hrow⟩ := List.mem_flatMap.mp h
      obtain ⟨cand, hcand, rfl⟩ := List.mem_map.mp hrow
      obtain ⟨hc1, _⟩ := List.mem_filter.mp hcand
      obtain ⟨hsub, hlen⟩ := List.mem_sublistsLen.mp hc1
      have hkk2 : 2 ≤ kk := by
        have := List.takeWhile_sublist
          (l := List.range' 2 (maxK - 1))
          (p := fun kk => decide (kk ≤ (frequentRoles (groupRecords df gcols k)
            (ceilMulNat mrs (distinctUsers (groupRecords df gcols k)).length)).length))
        have hmem := this.subset hkk
        exact (List.mem_range'_1.mp hmem).1
      refine ⟨rfl, rfl, by omega, rfl, by omega, hkk2, ?_⟩
      intro role hrole
      exact hsub.subset hrole

theorem mem_suggestItemsets {rules : List SodRule} {df : DataFrame}
    {gcols : List String} {mrs mis : ℚ} {maxK mgs : ℕ} {row : BundleRow}
    (h : row ∈ suggestItemsets rules df gcols mrs mis maxK mgs) :
    ∃ k, row ∈ groupSuggestions rules df gcols mrs mis maxK mgs k := by
  simp only [suggestItemsets] at h
  split at h
  · rw [List.mem_insertionSort] at h
    obtain ⟨k, _, hk⟩ := List.mem_flatMap.mp h
    exact ⟨k, hk⟩
  · cases h

theorem rowLE_total : ∀ r1 r2 : BundleRow, rowLE r1 r2 ∨ rowLE r2 r1 := by
  intro r1 r2
  unfold rowLE
  rcases Nat.lt_trichotomy (tierRank r1.confidence_tier) (tierRank r2.confidence_tier)
    with h | h | h
  · exact Or.inl (Or.inl h)
  · rcases Nat.lt_trichotomy (sodRank r1.sod_risk) (sodRank r2.sod_risk) with h2 | h2 | h2
    · exact Or.inl (Or.inr ⟨h, Or.inl h2⟩)
    · rcases lt_trichotomy r1.coverage_pct r2.coverage_pct with h3 | h3 | h3
      · exact Or.inr (Or.inr ⟨h.symm, Or.inr ⟨h2.symm, Or.inl h3⟩⟩)
      · rcases Nat.le_total r2.bundle_size r1.bundle_size with h4 | h4
        · exact Or.inl (Or.inr ⟨h, Or.inr ⟨h2, Or.inr ⟨h3.symm, h4⟩⟩⟩)
        · exact Or.inr (Or.inr ⟨h.symm, Or.inr ⟨h2.symm, Or.inr ⟨h3, h4⟩⟩⟩)
      · exact Or.inl (Or.inr ⟨h, Or.inr ⟨h2, Or.inl h3⟩⟩)
    · exact Or.inr (Or.inr ⟨h.symm, Or.inl h2⟩)
  · exact Or.inr (Or.inl h)

theorem rowLE_trans : ∀ r1 r2 r3 : BundleRow, rowLE r1 r2 → rowLE r2 r3 → rowLE r1 r3 := by
  intro r1 r2 r3 h12 h23
  unfold rowLE at h12 h23 ⊢
  rcases h12 with h12 | ⟨e12, h12⟩
  · rcases h23 with h23 | ⟨e23, _⟩
    · exact Or.inl (h12.trans h23)
    · exact Or.inl (h12.trans_eq e23)
  · rcases h23 with h23 | ⟨e23, h23⟩
    · exact Or.inl (e12.trans_lt h23)
    · refine Or.inr ⟨e12.trans e23, ?_⟩
      rcases h12 with h12 | ⟨f12, h12⟩
      · rcases h23 with h23 | ⟨f23, _⟩
        · exact Or.inl (h12.trans h23)
        · exact Or.inl (h12.trans_eq f23)
      · rcases h23 with h23 | ⟨f23, h23⟩
        · exact Or.inl (f12.trans_lt h23)
        · refine Or.inr ⟨f12.trans f23, ?_⟩
          rcases h12 with h12 | ⟨g12, h12⟩
          · rcases h23 with h23 | ⟨g23, _⟩
            · exact Or.inl (h23.trans h12)
            · exact Or.inl (g23.trans_lt h12)
          · rcases h23 with h23 | ⟨g23, h23⟩
            · exact Or.inl (h23.trans_eq g12)
            · exact Or.inr ⟨g23.trans g12, h23.trans h12⟩

/-! ### Claim C3 -/

/-- C3: the dynamic effective itemset support is
`min(requested, 0.60)` for groups of at most 12 users,
`min(requested, 0.65)` for 13..25 users, and the requested threshold
unchanged from 26 users up; a 12-user group never requires more than
0.60, a 26-user group uses the request unchanged; and every suggestion
row carries exactly this value for its own group size. -/
theorem c3_effective_support (s : ℚ) (n : ℕ) :
    (n ≤ 12 → effectiveItemsetSupport s n = min s (3 / 5)) ∧
    (12 < n → n ≤ 25 → effectiveItemsetSupport s n = min s (13 / 20)) ∧
    (26 ≤ n → effectiveItemsetSupport s n = s) ∧
    effectiveItemsetSupport s 12 ≤ 3 / 5 ∧
    effectiveItemsetSupport s 26 = s ∧
    (∀ (rules : List SodRule) (df : DataFrame) (gcols : List String)
       (mrs : ℚ) (maxK mgs : ℕ) (row : BundleRow),
       row ∈ suggestItemsets rules df gcols mrs s maxK mgs →
       row.effective_itemset_support = effectiveItemsetSupport s row.users_in_group) := by
  have h1 : ∀ m : ℕ, m ≤ 12 → effectiveItemsetSupport s m = min s (3 / 5) := by
    intro m hm
    unfold effectiveItemsetSupport
    rw [if_pos hm, mkRat_three_fifths]
  have h2 : ∀ m : ℕ, 12 < m → m ≤ 25 → effectiveItemsetSupport s m = min s (13 / 20) := by
    intro m hm1 hm2
    unfold effectiveItemsetSupport
    rw [if_neg (by omega), if_pos hm2, mkRat_thirteen_twentieths]
  have h3 : ∀ m : ℕ, 26 ≤ m → effectiveItemsetSupport s m = s := by
    intro m hm
    unfold effectiveItemsetSupport
    rw [if_neg (by omega), if_neg (by omega)]
  refine ⟨h1 n, h2 n, h3 n, ?_, h3 26 (by omega), ?_⟩
  · rw [h1 12 (by omega)]
    exact min_le_right _ _
  · intro rules df gcols mrs maxK mgs row hrow
    obtain ⟨k, hk⟩ := mem_suggestItemsets hrow
    obtain ⟨_, hn, _, heff, _⟩ := mem_groupSuggestions hk
    rw [heff, hn]

/-- Witness for C3 at `requested = 0.7` and at a concrete mining run. -/
theorem c3_witness :
    effectiveItemsetSupport (mkRat 7 10) 12 = min (mkRat 7 10) (3 / 5) ∧
    effectiveItemsetSupport (mkRat 7 10) 20 = min (mkRat 7 10) (13 / 20) ∧
    effectiveItemsetSupport (mkRat 7 10) 26 = mkRat 7 10 ∧
    sampleRow.effective_itemset_support =
      effectiveItemsetSupport (mkRat 1 2) sampleRow.users_in_group :=
  ⟨(c3_effective_support (mkRat 7 10) 12).1 (by omega),
   (c3_effective_support (mkRat 7 10) 20).2.1 (by omega) (by omega),
   (c3_effective_support (mkRat 7 10) 26).2.2.1 (by omega),
   (c3_effective_support (mkRat 1 2) 0).2.2.2.2.2 SOD_RULES sampleDF
     ["supervisor_level6", "job_code"] (mkRat 1 2) 2 1 sampleRow (by decide)⟩

/-! ### Claim C7 -/

/-- C7: the rows returned by `suggest_itemsets` are ordered, across all
groups, ascending by confidence-tier rank (STRONG first), then
ascending by SoD-risk rank (NONE/LOW first), then descending by
coverage percentage, then descending by bundle size. -/
theorem c7_output_order (rules : List SodRule) (df : DataFrame) (gcols : List String)
    (mrs mis : ℚ) (maxK mgs : ℕ) :
    (suggestItemsets rules df gcols mrs mis maxK mgs).Pairwise rowLE := by
  simp only [suggestItemsets]
  split
  · haveI : IsTotal BundleRow rowLE := ⟨rowLE_total⟩
    haveI : IsTrans BundleRow rowLE := ⟨rowLE_trans⟩
    exact List.sorted_insertionSort rowLE _
  · exact List.Pairwise.nil

/-! ### Claim C6 -/

/-- C6: every suggestion has bundle size at least 2; its `users_in_group`
field is the number of distinct users of its group; the group met
`min_group_size`; the group had at least two frequent roles; and every
role of the itemset individually met the single-role count threshold
`ceil(min_role_support * users_in_group)` within the group. -/
theorem c6_itemset_pruning (rules : List SodRule) (df : DataFrame)
    (gcols : List String) (mrs mis : ℚ) (maxK mgs : ℕ) (row : BundleRow)
    (h : row ∈ suggestItemsets rules df gcols mrs mis maxK mgs) :
    2 ≤ row.bundle_size ∧
    row.users_in_group = (distinctUsers (groupRecords df gcols row.groupKey)).length ∧
    mgs ≤ row.users_in_group ∧
    2 ≤ (frequentRoles (groupRecords df gcols row.groupKey)
      (ceilMulNat mrs row.users_in_group)).length ∧
    (∀ role ∈ row.bundle_roles,
      (⌈mrs * (row.users_in_group : ℚ)⌉ : ℤ) ≤
        (countUsersWithRole (groupRecords df gcols row.groupKey) role : ℤ)) := by
  obtain ⟨k, hk⟩ := mem_suggestItemsets h
  obtain ⟨hkey, hn, hmgs, _, hfreq, hsize, hroles⟩ := mem_groupSuggestions hk
  subst hkey
  refine ⟨hsize, hn, by omega, by rw [hn]; exact hfreq, ?_⟩
  intro role hrole
  have := (mem_frequentRoles.mp (hroles role hrole)).2
  rw [hn, ← ceilMulNat_eq]
  exact this

/-- Witness for C6 on the concrete sample run. -/
theorem c6_witness :
    2 ≤ sampleRow.bundle_size ∧
    sampleRow.users_in_group =
      (distinctUsers (groupRecords sampleDF ["supervisor_level6", "job_code"]
        sampleRow.groupKey)).length ∧
    1 ≤ sampleRow.users_in_group ∧
    2 ≤ (frequentRoles (groupRecords sampleDF ["supervisor_level6", "job_code"]
      sampleRow.groupKey) (ceilMulNat (mkRat 1 2) sampleRow.users_in_group)).length ∧
    (∀ role ∈ sampleRow.bundle_roles,
      (⌈(mkRat 1 2) * (sampleRow.users_in_group : ℚ)⌉ : ℤ) ≤
        (countUsersWithRole (groupRecords sampleDF ["supervisor_level6", "job_code"]
          sampleRow.groupKey) role : ℤ)) :=
  c6_itemset_pruning SOD_RULES sampleDF ["supervisor_level6", "job_code"]
    (mkRat 1 2) (mkRat 1 2) 2 1 sampleRow (by decide)

/-! ### Helper lemmas: the new-joiner flow -/

theorem detectSodConflicts_nil (rules : List SodRule) :
    detectSodConflicts rules [] = [] := by
  unfold detectSodConflicts
  rw [List.filter_eq_nil_iff.mpr (fun ru _ => by simp)]
  rfl

theorem applySodPolicy_nil (rules : List SodRule) (block : Bool) :
    applySodPolicy rules [] block = ([], [], []) := by
  have hc : sortDedupStr ([] : List String) = [] := rfl
  simp only [applySodPolicy, hc, detectSodConflicts_nil]
  cases block <;> rfl

theorem assessBundleSod_nil (rules : List SodRule) :
    assessBundleSod rules [] = Assessment.mk "LOW" [] := by
  have hc : sortDedupStr ([] : List String) = [] := rfl
  simp only [assessBundleSod, hc, detectSodConflicts_nil]
  rfl

theorem heuristicEnforce_nil (rules : List SodRule) (strength : String → ℕ)
    (block : Bool) :
    heuristicEnforce rules strength [] block = ([], [], Assessment.mk "LOW" []) := by
  simp only [heuristicEnforce, assessBundleSod_nil]
  cases block <;> simp

/-- The re-assessment invariant of the enforcement step: the reported
assessment is always the one computed on the final kept list. -/
theorem heuristicEnforce_reassessed (rules : List SodRule) (strength : String → ℕ)
    (keptRules : List String) (block : Bool) :
    (heuristicEnforce rules strength keptRules block).2.2 =
      assessBundleSod rules (heuristicEnforce rules strength keptRules block).1 := by
  simp only [heuristicEnforce]
  split
  · split
    · rfl
    · rfl
  · rfl

theorem removeStep_kept_subset {strength : String → ℕ}
    {st : List String × List String} {p : String × String} {r : String}
    (h : r ∈ (removeStep strength st p).1) : r ∈ st.1 := by
  simp only [removeStep] at h
  split at h
  · generalize (if strength p.1 < strength p.2 then p.1
      else if strength p.2 < strength p.1 then p.2 else p.2) = d at h
    split at h
    · exact List.mem_of_mem_erase h
    · exact h
  · exact h

theorem removeFoldl_kept_subset {strength : String → ℕ} :
    ∀ (pairs : List (String × String)) (st : List String × List String) {r : String},
      r ∈ (pairs.foldl (removeStep strength) st).1 → r ∈ st.1
  | [], _, _, h => h
  | p :: ps, st, _, h =>
    removeStep_kept_subset (removeFoldl_kept_subset ps (removeStep strength st p) h)

theorem heuristicEnforce_kept_subset {rules : List SodRule} {strength : String → ℕ}
    {keptRules : List String} {block : Bool} {r : String}
    (h : r ∈ (heuristicEnforce rules strength keptRules block).1) : r ∈ keptRules := by
  simp only [heuristicEnforce] at h
  split at h
  · split at h
    · have h' : r ∈ ((removeRolesForHighConflicts keptRules _ strength)).1 := h
      unfold removeRolesForHighConflicts at h'
      rw [mem_sortStrings] at h'
      exact List.mem_dedup.mp (removeFoldl_kept_subset _ _ h')
    · exact h
  · exact h

theorem applySodPolicy_kept_subset {rules : List SodRule} {cand : List String}
    {block : Bool} {r : String} (h : r ∈ (applySodPolicy rules cand block).1) :
    r ∈ cand := by
  cases block
  · exact mem_sortDedupStr.mp (mem_sortStrings.mp h)
  · have h' : r ∈ ((detectSodConflicts rules (sortDedupStr cand)).foldl
        sodStep (sortDedupStr cand, [])).1 := mem_sortStrings.mp h
    exact mem_sortDedupStr.mp (sodFoldl_kept_subset _ _ h')

theorem outRows_names (jobCode : String) (sup dep : Option String) (mrs : ℚ)
    (users : ℕ) (block : Bool) (elig : List (String × ℕ))
    (keptFinal removedAll : List String) (heuristic : Assessment) :
    (outRows jobCode sup dep mrs users block elig keptFinal removedAll
      heuristic).map (·.ar_role_name) =
      (elig.filter (fun x => decide (x.1 ∈ keptFinal))).map (·.1) := by
  unfold outRows
  rw [List.map_map]
  rfl

theorem mem_outRows_names {r : String} {jobCode : String} {sup dep : Option String}
    {mrs : ℚ} {users : ℕ} {block : Bool} {elig : List (String × ℕ)}
    {keptFinal removedAll : List String} {heuristic : Assessment} :
    r ∈ (outRows jobCode sup dep mrs users block elig keptFinal removedAll
        heuristic).map (·.ar_role_name) ↔
      r ∈ elig.map (·.1) ∧ r ∈ keptFinal := by
  rw [outRows_names]
  constructor
  · intro h
    obtain ⟨x, hx, rfl⟩ := List.mem_map.mp h
    obtain ⟨hmem, hcond⟩ := List.mem_filter.mp hx
    exact ⟨List.mem_map.mpr ⟨x, hmem, rfl⟩, of_decide_eq_true hcond⟩
  · rintro ⟨h1, h2⟩
    obtain ⟨x, hx, rfl⟩ := List.mem_map.mp h1
    exact List.mem_map.mpr ⟨x, List.mem_filter.mpr ⟨hx, decide_eq_true h2⟩, rfl⟩

theorem outRows_risk {row : RecRow} {jobCode : String} {sup dep : Option String}
    {mrs : ℚ} {users : ℕ} {block : Bool} {elig : List (String × ℕ)}
    {keptFinal removedAll : List String} {heuristic : Assessment}
    (h : row ∈ outRows jobCode sup dep mrs users block elig keptFinal removedAll
      heuristic) : row.sod_risk = heuristic.risk := by
  unfold outRows at h
  obtain ⟨x, _, rfl⟩ := List.mem_map.mp h
  rfl

/-- The core of the new-joiner flow: the output rows are exactly the
eligible roles that are in the final kept set, and the reported risk is
the heuristic assessment of that set. -/
theorem recommendCore_spec (rules : List SodRule) (jobCode : String)
    (sup dep : Option String) (mrs : ℚ) (users : ℕ)
    (elig : List (String × ℕ)) (block : Bool) :
    ∃ kept : List String,
      (∀ r, r ∈ (recommendCore rules jobCode sup dep mrs users elig block).map
          (·.ar_role_name) ↔ r ∈ kept) ∧
      (∀ row ∈ recommendCore rules jobCode sup dep mrs users elig block,
        row.sod_risk = (assessBundleSod rules kept).risk) := by
  have hrc : recommendCore rules jobCode sup dep mrs users elig block =
      outRows jobCode sup dep mrs users block elig
        (heuristicEnforce rules (strengthOf elig)
          (applySodPolicy rules (elig.map (·.1)) block).1 block).1
        (sortDedupStr ((applySodPolicy rules (elig.map (·.1)) block).2.1 ++
          (heuristicEnforce rules (strengthOf elig)
            (applySodPolicy rules (elig.map (·.1)) block).1 block).2.1))
        (heuristicEnforce rules (strengthOf elig)
          (applySodPolicy rules (elig.map (·.1)) block).1 block).2.2 := rfl
  refine ⟨(heuristicEnforce rules (strengthOf elig)
    (applySodPolicy rules (elig.map (·.1)) block).1 block).1, ?_, ?_⟩
  · intro r
    rw [hrc, mem_outRows_names]
    constructor
    · rintro ⟨_, h2⟩
      exact h2
    · intro h
      exact ⟨applySodPolicy_kept_subset (heuristicEnforce_kept_subset h), h⟩
  · intro row hrow
    rw [hrc] at hrow
    rw [outRows_risk hrow, heuristicEnforce_reassessed]

theorem recommendCore_nil (rules : List SodRule) (jobCode : String)
    (sup dep : Option String) (mrs : ℚ) (users : ℕ) (block : Bool) :
    recommendCore rules jobCode sup dep mrs users [] block = [] := rfl

/-! ### Claim C5 -/

/-- C5: when the cohort filter matches zero distinct users, the
recommender returns exactly one sentinel row — `users_in_cohort = 0`,
the "No users found for this cohort." reason, risk LOW, zero conflicts,
nothing removed — and (being a total function) raises no error. -/
theorem c5_empty_cohort_sentinel (rules : List SodRule) (df : List Record)
    (jobCode : String) (sup dep : Option String) (mrs : ℚ) (topN : ℕ) (block : Bool)
    (h : (distinctUsers (cohortOf df jobCode sup dep)).length = 0) :
    recommendAccessForNewJoiner rules df jobCode sup dep mrs topN block =
      [RecRow.mk jobCode 0 mrs (sup.getD "") (dep.getD "") "" 0 0
        "No users found for this cohort." "LOW" 0 [] "" (sodPolicyStr block)] := by
  simp only [recommendAccessForNewJoiner]
  rw [if_pos h]

/-- Witness for C5: a one-row dataset with a non-matching job code. -/
theorem c5_witness :
    recommendAccessForNewJoiner SOD_RULES
      [Record.mk "u1" "r1" "direct" "J1" "D1" "S1"] "J2" none none (mkRat 7 10) 15 true =
      [RecRow.mk "J2" 0 (mkRat 7 10) "" "" "" 0 0
        "No users found for this cohort." "LOW" 0 [] "" (sodPolicyStr true)] :=
  c5_empty_cohort_sentinel SOD_RULES [Record.mk "u1" "r1" "direct" "J1" "D1" "S1"]
    "J2" none none (mkRat 7 10) 15 true (by decide)

/-! ### Claim C9 -/

/-- C9: when the cohort has at least one distinct user but no role's
distinct-user count reaches `ceil(min_role_support * cohort_users)`,
the recommender returns zero rows — no sentinel row and no error. -/
theorem c9_no_eligible_roles_empty (rules : List SodRule) (df : List Record)
    (jobCode : String) (sup dep : Option String) (mrs : ℚ) (topN : ℕ) (block : Bool)
    (h1 : 0 < (distinctUsers (cohortOf df jobCode sup dep)).length)
    (h2 : ∀ r ∈ (cohortOf df jobCode sup dep).map (·.ar_role_name),
      (countUsersWithRole (cohortOf df jobCode sup dep) r : ℤ) <
        ⌈mrs * ((distinctUsers (cohortOf df jobCode sup dep)).length : ℚ)⌉) :
    recommendAccessForNewJoiner rules df jobCode sup dep mrs topN block = [] := by
  simp only [recommendAccessForNewJoiner]
  rw [if_neg (by omega)]
  have helig : (List.insertionSort cntGE
      ((sortStrings ((cohortOf df jobCode sup dep).map (·.ar_role_name)).dedup).map
        (fun r => (r, countUsersWithRole (cohortOf df jobCode sup dep) r)))).filter
      (fun x => decide (ceilMulNat mrs
        (distinctUsers (cohortOf df jobCode sup dep)).length ≤ (x.2 : ℤ))) = [] := by
    apply List.filter_eq_nil_iff.mpr
    intro x hx
    rw [List.mem_insertionSort] at hx
    obtain ⟨r, hr, rfl⟩ := List.mem_map.mp hx
    rw [mem_sortStrings, List.mem_dedup] at hr
    have hlt := h2 r hr
    rw [← ceilMulNat_eq] at hlt
    simp only [decide_eq_true_iff]
    omega
  rw [helig, List.take_nil, recommendCore_nil]

/-- Witness for C9: two users with two different roles each held once;
with support 0.7 the required count is 2, so nothing is eligible. -/
theorem c9_witness :
    recommendAccessForNewJoiner SOD_RULES
      [Record.mk "u1" "rA" "direct" "J1" "D1" "S1",
       Record.mk "u2" "rB" "direct" "J1" "D1" "S1"] "J1" none none
      (mkRat 7 10) 15 true = [] :=
  c9_no_eligible_roles_empty SOD_RULES
    [Record.mk "u1" "rA" "direct" "J1" "D1" "S1",
     Record.mk "u2" "rB" "direct" "J1" "D1" "S1"] "J1" none none
    (mkRat 7 10) 15 true (by decide)
    (by
      intro r hr
      rw [← ceilMulNat_eq]
      revert r
      decide)

/-! ### Claim C8 -/

/-- C8: (a) one enforcement step on a HIGH heuristic conflict pair whose
two roles are both still present removes the role with strictly lower
observed strength, and the second-listed role on ties; (b) in the full
flow with a non-empty cohort, the reported `sod_risk` of every output
row equals the heuristic assessment of exactly the set of roles that
appear in the output (the assessment is re-run after removals). -/
theorem c8_weaker_role_removed :
    (∀ (strength : String → ℕ) (kept removed : List String) (a b : String),
      a ∈ kept → b ∈ kept →
      ((strength a < strength b →
        removeStep strength (kept, removed) (a, b) = (kept.erase a, a :: removed)) ∧
       (strength b < strength a →
        removeStep strength (kept, removed) (a, b) = (kept.erase b, b :: removed)) ∧
       (strength a = strength b →
        removeStep strength (kept, removed) (a, b) = (kept.erase b, b :: removed)))) ∧
    (∀ (rules : List SodRule) (df : List Record) (jobCode : String)
       (sup dep : Option String) (mrs : ℚ) (topN : ℕ),
      0 < (distinctUsers (cohortOf df jobCode sup dep)).length →
      ∃ kept : List String,
        (∀ r, r ∈ (recommendAccessForNewJoiner rules df jobCode sup dep mrs topN true).map
            (·.ar_role_name) ↔ r ∈ kept) ∧
        (∀ row ∈ recommendAccessForNewJoiner rules df jobCode sup dep mrs topN true,
          row.sod_risk = (assessBundleSod rules kept).risk)) := by
  constructor
  · intro strength kept removed a b ha hb
    refine ⟨?_, ?_, ?_⟩
    · intro hlt
      unfold removeStep
      rw [if_pos ⟨ha, hb⟩]
      simp only [hlt, if_true]
      rw [if_pos ha]
    · intro hlt
      unfold removeStep
      rw [if_pos ⟨ha, hb⟩]
      simp only [show ¬ strength a < strength b from by omega, if_false, hlt, if_true]
      rw [if_pos hb]
    · intro heq
      unfold removeStep
      rw [if_pos ⟨ha, hb⟩]
      simp only [show ¬ strength a < strength b from by omega, if_false,
        show ¬ strength b < strength a from by omega]
      rw [if_pos hb]
  · intro rules df jobCode sup dep mrs topN h
    simp only [recommendAccessForNewJoiner]
    rw [if_neg (by omega)]
    exact recommendCore_spec rules jobCode sup dep mrs _ _ true

/-- Witness for C8: a removal step at unequal strengths, and the
reported risk on a concrete two-role cohort run. -/
theorem c8_witness :
    (removeStep (fun r => if r = "x" then 1 else 2) (["x", "y"], []) ("x", "y") =
      (["y"], ["x"])) ∧
    (∃ kept : List String,
      (∀ r, r ∈ (recommendAccessForNewJoiner SOD_RULES
          [Record.mk "u1" "fin_pay" "direct" "J1" "D1" "S1",
           Record.mk "u1" "fin_approve" "direct" "J1" "D1" "S1",
           Record.mk "u2" "fin_pay" "direct" "J1" "D1" "S1"] "J1" none none
          (mkRat 1 2) 15 true).map (·.ar_role_name) ↔ r ∈ kept) ∧
      (∀ row ∈ recommendAccessForNewJoiner SOD_RULES
          [Record.mk "u1" "fin_pay" "direct" "J1" "D1" "S1",
           Record.mk "u1" "fin_approve" "direct" "J1" "D1" "S1",
           Record.mk "u2" "fin_pay" "direct" "J1" "D1" "S1"] "J1" none none
          (mkRat 1 2) 15 true,
        row.sod_risk = (assessBundleSod SOD_RULES kept).risk)) :=
  ⟨((c8_weaker_role_removed.1 (fun r => if r = "x" then 1 else 2) ["x", "y"] []
      "x" "y" (by decide) (by decide)).1 (by decide)).trans (by decide),
   c8_weaker_role_removed.2 SOD_RULES
     [Record.mk "u1" "fin_pay" "direct" "J1" "D1" "S1",
      Record.mk "u1" "fin_approve" "direct" "J1" "D1" "S1",
      Record.mk "u2" "fin_pay" "direct" "J1" "D1" "S1"] "J1" none none
     (mkRat 1 2) 15 (by decide)⟩

/-! ### Claim C2 -/

/-- Counterexample to C2 as stated: on a one-row dataframe whose
`user_id` column is absent, the three metrics functions raise
`KeyError` (modelled as `Except.error`) instead of returning an empty
schema-stable result.  `role_usage_metrics` and `user_access_summary`
read the missing column unconditionally; `role_overlap_jaccard` reads
`user_id` inside its per-role-group loop, which runs here because the
frame has a row. -/
theorem c2_counterexample :
    roleUsageMetrics
      (DataFrame.mk ["ar_role_name", "department"]
        [Record.mk "u1" "r1" "direct" "J1" "D1" "S1"]) ["department"] =
      Except.error "KeyError" ∧
    userAccessSummary
      (DataFrame.mk ["ar_role_name", "department"]
        [Record.mk "u1" "r1" "direct" "J1" "D1" "S1"]) =
      Except.error "KeyError" ∧
    roleOverlapJaccard
      (DataFrame.mk ["ar_role_name", "department"]
        [Record.mk "u1" "r1" "direct" "J1" "D1" "S1"]) 3 50 =
      Except.error "KeyError" :=
  ⟨rfl, rfl, rfl⟩

/-- C2 (amended): only `suggest_itemsets` guards missing required
columns, returning the empty schema-stable result.  `role_usage_metrics`
and `user_access_summary` raise `KeyError` whenever a column they read
is absent.  `role_overlap_jaccard` raises when `ar_role_name` is
absent, or when `user_id` is absent and the frame has at least one row;
with no rows its per-role-group loop never reads `user_id`, so it
returns the empty result instead of raising. -/
theorem c2_missing_column (rules : List SodRule) (df : DataFrame)
    (gcols : List String) (mrs mis : ℚ) (maxK mgs mcu topN : ℕ) :
    (¬ (∀ c ∈ ["user_id", "ar_role_name"] ++ gcols, c ∈ df.cols) →
      suggestItemsets rules df gcols mrs mis maxK mgs = []) ∧
    (¬ (∀ c ∈ gcols ++ ["user_id", "ar_role_name"], c ∈ df.cols) →
      ∃ e, roleUsageMetrics df gcols = Except.error e) ∧
    (¬ (∀ c ∈ uasRequiredCols, c ∈ df.cols) →
      ∃ e, userAccessSummary df = Except.error e) ∧
    (("ar_role_name" ∉ df.cols ∨ (df.rows ≠ [] ∧ "user_id" ∉ df.cols)) →
      ∃ e, roleOverlapJaccard df mcu topN = Except.error e) ∧
    ("ar_role_name" ∈ df.cols → df.rows = [] →
      roleOverlapJaccard df mcu topN = Except.ok []) := by
  refine ⟨?_, ?_, ?_, ?_, ?_⟩
  · intro h
    have hb : ¬ ((["user_id", "ar_role_name"] ++ gcols).all
        (fun c => decide (c ∈ df.cols)) = true) := by
      intro hall
      exact h (fun c hc => of_decide_eq_true (List.all_eq_true.mp hall c hc))
    simp only [suggestItemsets]
    rw [if_neg hb]
  · intro h
    have hb : ¬ ((gcols ++ ["user_id", "ar_role_name"]).all
        (fun c => decide (c ∈ df.cols)) = true) := by
      intro hall
      exact h (fun c hc => of_decide_eq_true (List.all_eq_true.mp hall c hc))
    simp only [roleUsageMetrics]
    rw [if_neg hb]
    exact ⟨_, rfl⟩
  · intro h
    have hb : ¬ (uasRequiredCols.all (fun c => decide (c ∈ df.cols)) = true) := by
      intro hall
      exact h (fun c hc => of_decide_eq_true (List.all_eq_true.mp hall c hc))
    simp only [userAccessSummary]
    rw [if_neg hb]
    exact ⟨_, rfl⟩
  · intro h
    simp only [roleOverlapJaccard]
    rcases h with h | h
    · rw [if_neg h]
      exact ⟨_, rfl⟩
    · by_cases h1 : "ar_role_name" ∈ df.cols
      · rw [if_pos h1, if_pos h]
        exact ⟨_, rfl⟩
      · rw [if_neg h1]
        exact ⟨_, rfl⟩
  · intro h1 h2
    simp only [roleOverlapJaccard]
    rw [if_pos h1, if_neg (fun hc => hc.1 h2), h2]
    show Except.ok (([] : List OverlapRow).take topN) = Except.ok []
    rw [List.take_nil]

/-- Witness for C2 (amended): the guarded mining call, the three
raising calls on a one-row frame missing `user_id`, and the
no-rows/no-raise boundary of the overlap function. -/
theorem c2_witness :
    suggestItemsets SOD_RULES
      (DataFrame.mk ["ar_role_name", "department"]
        [Record.mk "u1" "r1" "direct" "J1" "D1" "S1"])
      ["department"] (mkRat 3 5) (mkRat 7 10) 3 10 = [] ∧
    (∃ e, roleUsageMetrics
      (DataFrame.mk ["ar_role_name", "department"]
        [Record.mk "u1" "r1" "direct" "J1" "D1" "S1"])
      ["department"] = Except.error e) ∧
    (∃ e, userAccessSummary
      (DataFrame.mk ["ar_role_name", "department"]
        [Record.mk "u1" "r1" "direct" "J1" "D1" "S1"]) = Except.error e) ∧
    (∃ e, roleOverlapJaccard
      (DataFrame.mk ["ar_role_name", "department"]
        [Record.mk "u1" "r1" "direct" "J1" "D1" "S1"]) 3 50 = Except.error e) ∧
    roleOverlapJaccard (DataFrame.mk ["ar_role_name", "department"] []) 3 50 =
      Except.ok [] :=
  ⟨(c2_missing_column SOD_RULES
      (DataFrame.mk ["ar_role_name", "department"]
        [Record.mk "u1" "r1" "direct" "J1" "D1" "S1"])
      ["department"] (mkRat 3 5) (mkRat 7 10) 3 10 3 50).1 (by decide),
   (c2_missing_column SOD_RULES
      (DataFrame.mk ["ar_role_name", "department"]
        [Record.mk "u1" "r1" "direct" "J1" "D1" "S1"])
      ["department"] (mkRat 3 5) (mkRat 7 10) 3 10 3 50).2.1 (by decide),
   (c2_missing_column SOD_RULES
      (DataFrame.mk ["ar_role_name", "department"]
        [Record.mk "u1" "r1" "direct" "J1" "D1" "S1"])
      ["department"] (mkRat 3 5) (mkRat 7 10) 3 10 3 50).2.2.1 (by decide),
   (c2_missing_column SOD_RULES
      (DataFrame.mk ["ar_role_name", "department"]
        [Record.mk "u1" "r1" "direct" "J1" "D1" "S1"])
      ["department"] (mkRat 3 5) (mkRat 7 10) 3 10 3 50).2.2.2.1 (by decide),
   (c2_missing_column SOD_RULES
      (DataFrame.mk ["ar_role_name", "department"] [])
      ["department"] (mkRat 3 5) (mkRat 7 10) 3 10 3 50).2.2.2.2 (by decide) rfl⟩

end BRB
